import Mathlib

/-!
Shallow embedding of the rule-parsing and matching core of `mpdspl.py`
(the MPD smart-playlist generator).

Conventions of the embedding:
* Python strings are `List Char`; raised exceptions are `Option.none`.
* The environment's local-time conversion (`time.mktime`) is modelled as a
  fixed offset `tz` of seconds east of UTC, with no DST transitions; the
  conversion from a calendar date to a day count uses the standard civil
  calendar algorithm, which agrees with the C library on the Gregorian range.
* The two fixed regular expressions of the source (the master rule pattern
  of `RuleFactory.getRule` and `TIME_DELTA_REGEX` of `TimeDeltaRule`) are
  embedded directly with their greedy-backtracking semantics.
* `re.search` used by `RegexRule.__match__` is embedded on its
  metacharacter-free (literal) fragment; a pattern containing a regex
  metacharacter is outside the modelled fragment and yields `none`.
* Numeric field conversion uses `int`-style parsing; the `float` conversion
  of `TimeStampRule.__match__` is modelled on integer-valued field text.
-/

namespace Mpdspl

/-- Python 2 `\w` for plain patterns: `[a-zA-Z0-9_]` (ASCII). -/
def isWordChar (c : Char) : Bool :=
  c.isAlphanum || c == '_'

/-- Python 2 `\s`: `[ \t\n\r\f\v]`. -/
def pyIsSpace (c : Char) : Bool :=
  c == ' ' || c == '\t' || c == '\n' || c == '\r' || c == '\x0b' || c == '\x0c'

/-- The three delimiter characters of `RuleFactory.DELIMITER_TO_RULE`. -/
def isDelim (c : Char) : Bool :=
  c == '/' || c == '%' || c == '@'

/-- Length of the longest `\w` prefix of a string. -/
def wordPrefixLen : List Char → Nat
  | [] => 0
  | c :: cs => if isWordChar c then wordPrefixLen cs + 1 else 0

/-- Length of the longest `\s` prefix of a string. -/
def wsPrefixLen : List Char → Nat
  | [] => 0
  | c :: cs => if pyIsSpace c then wsPrefixLen cs + 1 else 0

/-- Length of the longest `\d` prefix of a string. -/
def digitPrefixLen : List Char → Nat
  | [] => 0
  | c :: cs => if c.isDigit then digitPrefixLen cs + 1 else 0

def digitsToNatAux : List Char → Nat → Nat
  | [], acc => acc
  | c :: cs, acc => digitsToNatAux cs (acc * 10 + (c.toNat - '0'.toNat))

/-- Value of a digit string, as computed by Python `int` on an all-digit string. -/
def digitsToNat (ds : List Char) : Nat := digitsToNatAux ds 0

/-- Python `int(text)`: strip surrounding whitespace, optional sign, digits. -/
def pyInt (s : List Char) : Option Int :=
  match (((s.dropWhile pyIsSpace).reverse.dropWhile pyIsSpace).reverse :
      List Char) with
  | '-' :: ds =>
    if !ds.isEmpty && ds.all Char.isDigit then some (-(digitsToNat ds : Int)) else none
  | '+' :: ds =>
    if !ds.isEmpty && ds.all Char.isDigit then some (digitsToNat ds : Int) else none
  | ds =>
    if !ds.isEmpty && ds.all Char.isDigit then some (digitsToNat ds : Int) else none

/-! ## The master rule pattern

`RuleFactory.getRule` matches a segment against the anchored-at-start pattern

  `(?P<key>\w+)(?P<operator>.)(?P<delimiter>[/%@])(?P<value>.+)\3(?P<flags>\w+)?`

with Python's greedy backtracking (trailing unmatched text is allowed,
since `re.match` only anchors the start).  `vsplit` realises the
`(?P<value>.+)\3` part: the value is the longest newline-free run that is
followed by one more occurrence of the delimiter. -/

structure RuleParts where
  key : List Char
  operator : Char
  delimiter : Char
  value : List Char
  flags : List Char
deriving DecidableEq

/-- Split `rest` at the last delimiter occurrence reachable without crossing a
newline: `some (v, a)` with `rest = v ++ dl :: a`, `v` newline-free and as long
as possible.  This is the greedy choice of `(?P<value>.+)\3` (the value part
may still be empty here; `parseAt` rejects that case, since `.+` needs at
least one character). -/
def vsplit : List Char → Char → Option (List Char × List Char)
  | [], _ => none
  | c :: cs, dl =>
    if c == '\n' then none
    else
      match vsplit cs dl with
      | some (v, a) => some (c :: v, a)
      | none => if c == dl then some ([], cs) else none

/-- The part of the master pattern after the key: `.` operator (no newline),
delimiter class, greedy value, backreference, optional greedy `\w+` flags
(trailing text is ignored, as `re.match` does not anchor the end). -/
def parseAfterKey (key : List Char) : List Char → Option RuleParts
  | [] => none
  | [_] => none
  | op :: dl :: rest =>
    if op != '\n' && isDelim dl then
      match vsplit rest dl with
      | some (v, a) =>
        if v.isEmpty then none
        else some { key := key, operator := op, delimiter := dl,
                    value := v, flags := a.take (wordPrefixLen a) }
      | none => none
    else none

/-- Attempt the master pattern with a key of exactly `k` characters. -/
def parseAt (s : List Char) (k : Nat) : Option RuleParts :=
  parseAfterKey (s.take k) (s.drop k)

/-- Greedy `\w+` key: try the longest word prefix first, backtracking to
shorter keys. -/
def tryKeys (s : List Char) : Nat → Option RuleParts
  | 0 => none
  | k + 1 =>
    match parseAt s (k + 1) with
    | some p => some p
    | none => tryKeys s k

/-- The tokenisation step of `RuleFactory.getRule`: `none` is the
"Could not parse rule" exception. -/
def getRuleParse (s : List Char) : Option RuleParts :=
  tryKeys s (wordPrefixLen s)

/-! ## Compiled rules -/

/-- Fields set by `AbstractRule.__init__` (the `value` field is kept in the
variant, since the two time variants overwrite it during construction). -/
structure AbstractRule where
  key : List Char
  operator : Char
  delimiter : Char
  flags : List Char
  negate : Bool
deriving DecidableEq

def mkBase (p : RuleParts) : AbstractRule :=
  { key := p.key, operator := p.operator, delimiter := p.delimiter,
    flags := p.flags, negate := p.flags.contains 'n' }

/-- The three rule classes.  `regex` keeps the raw pattern and the computed
`reFlags` bitmask; `timeDelta` keeps `self.value = self.timeDelta.seconds`;
`timeStamp` keeps `self.value = time.mktime(ts)`. -/
inductive Rule where
  | regex (base : AbstractRule) (value : List Char) (reFlags : Nat)
  | timeDelta (base : AbstractRule) (value : Nat)
  | timeStamp (base : AbstractRule) (value : Int)
deriving DecidableEq

def Rule.base : Rule → AbstractRule
  | .regex b _ _ => b
  | .timeDelta b _ => b
  | .timeStamp b _ => b

/-- `RegexRule.FLAGS`: `i` is `re.IGNORECASE` (2), `l` is `re.LOCALE` (4);
any other flag character raises `KeyError` in `RegexRule.__init__`. -/
def reFlagVal (c : Char) : Option Nat :=
  if c == 'i' then some 2 else if c == 'l' then some 4 else none

def reFlagsFold : List Char → Nat → Option Nat
  | [], acc => some acc
  | c :: cs, acc =>
    match reFlagVal c with
    | some b => reFlagsFold cs (acc ||| b)
    | none => none

/-- `RegexRule.__init__`: folds every parsed flag (including `n`!) through
`FLAGS`. -/
def regexCtor (p : RuleParts) : Option Rule :=
  match reFlagsFold p.flags 0 with
  | none => none
  | some fl => some (Rule.regex (mkBase p) p.value fl)

/-! ### TimeDeltaRule construction -/

/-- Backtracking for `TIME_DELTA_REGEX = (?P<number>\d+)\s*(?P<unit>\w+)`
with the digit count fixed to `d` (trying `d` first, then shorter). -/
def tdParseGo (v : List Char) : Nat → Option (Nat × List Char)
  | 0 => none
  | d + 1 =>
    let rest := v.drop (d + 1)
    let rest2 := rest.drop (wsPrefixLen rest)
    let u := wordPrefixLen rest2
    if u == 0 then tdParseGo v d
    else some (digitsToNat (v.take (d + 1)), rest2.take u)

/-- `re.match(TIME_DELTA_REGEX, value)`: number and unit, or `none`
("Could not parse duration"). -/
def tdParse (v : List Char) : Option (Nat × List Char) :=
  tdParseGo v (digitPrefixLen v)

/-- `self.unit = d['unit'].lower()`, then append `s` when the unit does not
already end in `s`. -/
def normUnit (u : List Char) : List Char :=
  let l := u.map Char.toLower
  if l.getLast? == some 's' then l else l ++ ['s']

/-- The keyword arguments accepted by `datetime.timedelta`, as microseconds
per unit; any other unit name raises `TypeError`. -/
def unitToUs (u : List Char) : Option Nat :=
  if u = "weeks".toList then some 604800000000
  else if u = "days".toList then some 86400000000
  else if u = "hours".toList then some 3600000000
  else if u = "minutes".toList then some 60000000
  else if u = "seconds".toList then some 1000000
  else if u = "milliseconds".toList then some 1000
  else if u = "microseconds".toList then some 1
  else none

/-- `TimeDeltaRule.__init__`: parse `<number><unit>`, build the timedelta and
keep `timedelta.seconds`, i.e. the whole-second total modulo 86400 (the
normalised `seconds` component of a non-negative duration). -/
def timeDeltaCtor (p : RuleParts) : Option Rule :=
  match tdParse p.value with
  | none => none
  | some (n, u0) =>
    match unitToUs (normUnit u0) with
    | none => none
    | some us => some (Rule.timeDelta (mkBase p) (n * us / 1000000 % 86400))

/-! ### TimeStampRule construction -/

/-- `%m` of `time.strptime`: `1[0-2]|0[1-9]|[1-9]` followed by the rest. -/
def parseMonth : List Char → Option (Nat × List Char)
  | a :: b :: r =>
    if (a == '1' && b.isDigit && b.toNat ≤ '2'.toNat)
        || (a == '0' && b.isDigit && '1'.toNat ≤ b.toNat) then
      some (10 * (a.toNat - '0'.toNat) + (b.toNat - '0'.toNat), r)
    else if a.isDigit && '1'.toNat ≤ a.toNat then
      some (a.toNat - '0'.toNat, b :: r)
    else none
  | [a] =>
    if a.isDigit && '1'.toNat ≤ a.toNat then some (a.toNat - '0'.toNat, []) else none
  | [] => none

/-- `%d` of `time.strptime`: `3[01]|[12]\d|0[1-9]|[1-9]` followed by the rest. -/
def parseDay : List Char → Option (Nat × List Char)
  | a :: b :: r =>
    if (a == '3' && b.isDigit && b.toNat ≤ '1'.toNat)
        || ((a == '1' || a == '2') && b.isDigit)
        || (a == '0' && b.isDigit && '1'.toNat ≤ b.toNat) then
      some (10 * (a.toNat - '0'.toNat) + (b.toNat - '0'.toNat), r)
    else if a.isDigit && '1'.toNat ≤ a.toNat then
      some (a.toNat - '0'.toNat, b :: r)
    else none
  | [a] =>
    if a.isDigit && '1'.toNat ≤ a.toNat then some (a.toNat - '0'.toNat, []) else none
  | [] => none

/-- `time.strptime(value, '%Y-%m-%d')`: a 4-digit year, dash, month, dash,
day, with the whole string consumed ("unconverted data remains" otherwise). -/
def dateParse (v : List Char) : Option (Int × Int × Int) :=
  match v with
  | y1 :: y2 :: y3 :: y4 :: '-' :: rest =>
    if y1.isDigit && y2.isDigit && y3.isDigit && y4.isDigit then
      match parseMonth rest with
      | some (m, '-' :: rest2) =>
        match parseDay rest2 with
        | some (d, []) =>
          some ((digitsToNat [y1, y2, y3, y4] : Int), (m : Int), (d : Int))
        | _ => none
      | _ => none
    else none
  | _ => none

/-- Days since 1970-01-01 of a Gregorian civil date (the standard
days-from-civil algorithm, matching the C library's calendar). -/
def daysFromCivil (y m d : Int) : Int :=
  let y' := if m ≤ 2 then y - 1 else y
  let era := Int.fdiv y' 400
  let yoe := y' - era * 400
  let doy := Int.fdiv (153 * (if 2 < m then m - 3 else m + 9) + 2) 5 + d - 1
  let doe := yoe * 365 + Int.fdiv yoe 4 - Int.fdiv yoe 100 + doy
  era * 146097 + doe - 719468

/-- `TimeStampRule.__init__` under a fixed local offset `tz` (seconds east of
UTC): `time.mktime` of local midnight of the parsed date. -/
def timeStampCtor (tz : Int) (p : RuleParts) : Option Rule :=
  match dateParse p.value with
  | none => none
  | some (y, m, d) =>
    some (Rule.timeStamp (mkBase p) (daysFromCivil y m d * 86400 - tz))

/-- `RuleFactory.getRule`: tokenise, then dispatch on the delimiter through
`DELIMITER_TO_RULE`. -/
def getRule (tz : Int) (s : List Char) : Option Rule :=
  match getRuleParse s with
  | none => none
  | some p =>
    if p.delimiter == '/' then regexCtor p
    else if p.delimiter == '%' then timeDeltaCtor p
    else if p.delimiter == '@' then timeStampCtor tz p
    else none

/-! ## Tracks and matching -/

/-- The attribute names produced by lowering the first components of
`KEYWORDS`. -/
inductive TrackAttr where
  | artist | album | title | track | genre | date | time | file | key | mtime | rating
deriving DecidableEq

/-- `KEYWORDS[k][0].lower()`, `none` being the `KeyError` on an unknown code.
This lookup happens inside `AbstractRule.match`, i.e. at match time. -/
def keywordsAttr (k : List Char) : Option TrackAttr :=
  if k = "ar".toList then some .artist
  else if k = "al".toList then some .album
  else if k = "ti".toList then some .title
  else if k = "tn".toList then some .track
  else if k = "ge".toList then some .genre
  else if k = "ye".toList then some .date
  else if k = "le".toList then some .time
  else if k = "fp".toList then some .file
  else if k = "fn".toList then some .key
  else if k = "mt".toList then some .mtime
  else if k = "ra".toList then some .rating
  else none

/-- A track record; `Track.__init__` creates every attribute as `""`. -/
structure Track where
  artist : String := ""
  album : String := ""
  title : String := ""
  track : String := ""
  genre : String := ""
  date : String := ""
  time : String := ""
  file : String := ""
  key : String := ""
  mtime : String := ""
  rating : String := ""
deriving DecidableEq

/-- `getattr(track, attr)`. -/
def trackGet (t : Track) : TrackAttr → String
  | .artist => t.artist
  | .album => t.album
  | .title => t.title
  | .track => t.track
  | .genre => t.genre
  | .date => t.date
  | .time => t.time
  | .file => t.file
  | .key => t.key
  | .mtime => t.mtime
  | .rating => t.rating

/-- The shared `OPERATORS` table of the two time variants
(`=`/`<`/`>` mapping to `eq`/`le`/`ge`); `none` is the `KeyError` raised by
`getOperator` on any other operator character. -/
def tsOpApply (c : Char) : Option (Int → Int → Bool) :=
  if c == '=' then some (fun a b => a == b)
  else if c == '<' then some (fun a b => decide (a ≤ b))
  else if c == '>' then some (fun a b => decide (b ≤ a))
  else none

/-- Regex metacharacters: a pattern containing one is outside the literal
fragment modelled here. -/
def reMeta (c : Char) : Bool :=
  c == '.' || c == '^' || c == '$' || c == '*' || c == '+' || c == '?' ||
  c == '\x7b' || c == '\x7d' || c == '[' || c == ']' || c == '\\' ||
  c == '|' || c == '(' || c == ')'

def startsList : List Char → List Char → Bool
  | [], _ => true
  | _ :: _, [] => false
  | p :: ps, t :: ts => p == t && startsList ps ts

/-- Substring test. -/
def hasSub (pat : List Char) : List Char → Bool
  | [] => pat.isEmpty
  | t :: ts => startsList pat (t :: ts) || hasSub pat ts

/-- `re.search(pattern, text, flags)` on the literal fragment; bit 2 of the
flag mask is `re.IGNORECASE`, `re.LOCALE` does not change literal matching. -/
def reSearch (pat text : List Char) (fl : Nat) : Option Bool :=
  if pat.any reMeta then none
  else if fl &&& 2 != 0 then
    some (hasSub (pat.map Char.toLower) (text.map Char.toLower))
  else some (hasSub pat text)

/-- `TimeStampRule.__match__` after the numeric field value `v` has been
obtained: round `v` down to the precision of `%Y-%m-%d` using `gmtime` (UTC
day boundaries), re-encode that day through the local `mktime`, and compare
with the stored target. -/
def tsMatchCore (tz : Int) (op : Char) (tgt v : Int) : Option Bool :=
  match tsOpApply op with
  | none => none
  | some f => some (f (Int.fdiv v 86400 * 86400 - tz) tgt)

/-- The `__match__` method of the resolved rule class, applied to the raw
field text. -/
def variantMatch (tz : Int) (r : Rule) (text : List Char) : Option Bool :=
  match r with
  | .regex b v fl => if b.operator == '=' then reSearch v text fl else none
  | .timeDelta b thr =>
    match tsOpApply b.operator with
    | none => none
    | some f =>
      match pyInt text with
      | none => none
      | some n => some (f n (thr : Int))
  | .timeStamp b tgt =>
    match pyInt text with
    | none => none
    | some v => tsMatchCore tz b.operator tgt v

/-- `AbstractRule.match`: resolve the attribute through `KEYWORDS`, run the
variant's `__match__`, then apply the negate flag to the result. -/
def ruleMatch (tz : Int) (r : Rule) (t : Track) : Option Bool :=
  match keywordsAttr r.base.key with
  | none => none
  | some a =>
    match variantMatch tz r (trackGet t a).toList with
    | none => none
    | some b => some (if r.base.negate then !b else b)

/-! ## Playlists -/

structure Playlist where
  name : String
  rules : List Rule
  tracks : List Track
  m3u : Option String
deriving DecidableEq

/-- `re.split(r'\s+', s)`: the boolean records whether the scanner is inside
a separator run (so that a run of whitespace produces a single split). -/
def splitGo : List Char → List Char → Bool → List (List Char)
  | [], acc, _ => [acc.reverse]
  | c :: cs, acc, inSep =>
    if pyIsSpace c then
      if inSep then splitGo cs [] true
      else acc.reverse :: splitGo cs [] true
    else splitGo cs (c :: acc) false

def splitWs (s : List Char) : List (List Char) :=
  splitGo s [] false

def mapRules (tz : Int) : List (List Char) → Option (List Rule)
  | [] => some []
  | s :: ss =>
    match getRule tz s with
    | none => none
    | some r =>
      match mapRules tz ss with
      | none => none
      | some rs => some (r :: rs)

/-- `Playlist.__init__`: split the rule string on whitespace runs and compile
every segment; a failing segment aborts construction. -/
def playlistInit (tz : Int) (nm : String) (ruleString : List Char) : Option Playlist :=
  match mapRules tz (splitWs ruleString) with
  | none => none
  | some rs => some { name := nm, rules := rs, tracks := [], m3u := none }

/-- The inner conjunction loop of `findMatchingTracks`, with its
short-circuit on the first failing rule. -/
def rulesAll (tz : Int) : List Rule → Track → Option Bool
  | [], _ => some true
  | r :: rs, t =>
    match ruleMatch tz r t with
    | none => none
    | some true => rulesAll tz rs t
    | some false => some false

def matchLoop (tz : Int) (rules : List Rule) : List Track → Option (List Track)
  | [] => some []
  | t :: ts =>
    match rulesAll tz rules t with
    | none => none
    | some b =>
      match matchLoop tz rules ts with
      | none => none
      | some m => some (if b then t :: m else m)

/-- `Playlist.setM3u`: newline-joined file paths with one trailing newline. -/
def setM3u (tracks : List Track) : String :=
  String.intercalate ("\n") (tracks.map Track.file) ++ "\n"

/-- `Playlist.findMatchingTracks`: recompute the matched list from scratch
and store it together with its rendering (an exception anywhere in the scan
aborts the whole call). -/
def findMatchingTracks (tz : Int) (p : Playlist) (ts : List Track) : Option Playlist :=
  match matchLoop tz p.rules ts with
  | none => none
  | some m => some { p with tracks := m, m3u := some (setM3u m) }

/-! ## Soundness of the master-pattern tokeniser -/

theorem vsplit_sound (dl : Char) :
    ∀ (cs v a : List Char), vsplit cs dl = some (v, a) →
      cs = v ++ dl :: a ∧ ∀ c ∈ v, c ≠ '\n' := by
  intro cs
  induction cs with
  | nil => intro v a h; exact Option.noConfusion h
  | cons c cs ih =>
    intro v a h
    simp only [vsplit] at h
    by_cases hc : c == '\n'
    · rw [if_pos hc] at h; exact Option.noConfusion h
    · rw [if_neg hc] at h
      cases hv : vsplit cs dl with
      | some pr =>
        obtain ⟨v', a'⟩ := pr
        obtain ⟨h1, h2⟩ := ih v' a' hv
        rw [hv] at h
        simp only [Option.some.injEq, Prod.mk.injEq] at h
        obtain ⟨hv2, ha2⟩ := h
        subst hv2; subst ha2
        refine ⟨by rw [h1]; rfl, ?_⟩
        intro x hx
        rcases List.mem_cons.mp hx with hx | hx
        · subst hx; simpa using hc
        · exact h2 x hx
      | none =>
        rw [hv] at h
        by_cases hcd : c == dl
        · rw [if_pos hcd] at h
          simp only [Option.some.injEq, Prod.mk.injEq] at h
          obtain ⟨hv2, ha2⟩ := h
          subst hv2; subst ha2
          exact ⟨by simpa using hcd, by intro x hx; exact absurd hx (List.not_mem_nil x)⟩
        · rw [if_neg hcd] at h; exact Option.noConfusion h

theorem parseAfterKey_sound (key tl : List Char) (p : RuleParts)
    (h : parseAfterKey key tl = some p) :
    p.key = key ∧ p.value ≠ [] ∧ (∀ c ∈ p.value, c ≠ '\n') ∧
      ∃ rest, tl = p.operator :: p.delimiter ::
        (p.value ++ p.delimiter :: (p.flags ++ rest)) := by
  rcases tl with _ | ⟨op, _ | ⟨dl, rest⟩⟩
  · exact Option.noConfusion h
  · exact Option.noConfusion h
  · simp only [parseAfterKey] at h
    by_cases hg : (op != '\n' && isDelim dl) = true
    · rw [if_pos hg] at h
      cases hv : vsplit rest dl with
      | none => rw [hv] at h; exact Option.noConfusion h
      | some pr =>
        obtain ⟨v, a⟩ := pr
        rw [hv] at h
        dsimp only at h
        by_cases he : v.isEmpty
        · rw [if_pos he] at h; exact Option.noConfusion h
        · rw [if_neg he] at h
          obtain ⟨hrest, hnl⟩ := vsplit_sound dl rest v a hv
          injection h with h'
          subst h'
          refine ⟨rfl, ?_, hnl, a.drop (wordPrefixLen a), ?_⟩
          · simpa [List.isEmpty_iff] using he
          · rw [List.take_append_drop, ← hrest]
    · rw [if_neg hg] at h; exact Option.noConfusion h

theorem tryKeys_sound (s : List Char) :
    ∀ (n : Nat) (p : RuleParts), tryKeys s n = some p →
      ∃ k, parseAfterKey (s.take k) (s.drop k) = some p := by
  intro n
  induction n with
  | zero => intro p h; exact Option.noConfusion h
  | succ k ih =>
    intro p h
    simp only [tryKeys] at h
    cases hp : parseAt s (k + 1) with
    | some q => rw [hp] at h; injection h with h'; subst h'; exact ⟨k + 1, hp⟩
    | none => rw [hp] at h; exact ih p h

/-! ## Concrete rules and tracks used by the claim instances -/

/-- The rule compiled from `zz=%3seconds%`: a relative-time-span rule whose
field code `zz` is not in `KEYWORDS`. -/
def ruleZzDelta : Rule :=
  Rule.timeDelta { key := "zz".toList, operator := '=', delimiter := '%',
                   flags := [], negate := false } 3

/-- The rule compiled from `ar!/foo/`: a pattern rule whose operator `!` has
no entry in `RegexRule.OPERATORS`. -/
def ruleArBang : Rule :=
  Rule.regex { key := "ar".toList, operator := '!', delimiter := '/',
               flags := [], negate := false } "foo".toList 0

/-- The rule compiled from `zz=/foo/`: a pattern rule whose field code `zz`
is not in `KEYWORDS`. -/
def ruleZzRegex : Rule :=
  Rule.regex { key := "zz".toList, operator := '=', delimiter := '/',
               flags := [], negate := false } "foo".toList 0

/-- The rule compiled from `ar=/foo/`. -/
def ruleArFoo : Rule :=
  Rule.regex { key := "ar".toList, operator := '=', delimiter := '/',
               flags := [], negate := false } "foo".toList 0

/-- A freshly constructed track (every attribute is the empty string). -/
def trackBlank : Track := {}

/-- C2: the claim says a successfully compiled rule never raises during
matching.  This is false: the segment `zz=%3seconds%` compiles into
`ruleZzDelta`, and matching it against a freshly constructed track raises
(`KeyError` on the `KEYWORDS` lookup inside `AbstractRule.match`, modelled
as `none`). -/
theorem c2_counterexample :
    getRule 0 ("zz=%3seconds%".toList) = some ruleZzDelta
      ∧ ruleMatch 0 ruleZzDelta trackBlank = none :=
  ⟨by decide, rfl⟩

/-- C2 (amended): not all rule failures occur at construction.  The segment
`zz=%3seconds%` compiles successfully, yet matching the compiled rule raises
for every track record: the `KEYWORDS` registry lookup, the operator-table
lookup and the numeric conversion of the field text all happen during
evaluation, not at compile time. -/
theorem c2_amended_match_can_raise :
    getRule 0 ("zz=%3seconds%".toList) = some ruleZzDelta
      ∧ ∀ t : Track, ruleMatch 0 ruleZzDelta t = none :=
  ⟨by decide, fun _ => rfl⟩

theorem c2_witness :
    getRule 0 ("zz=%3seconds%".toList) = some ruleZzDelta
      ∧ ruleMatch 0 ruleZzDelta { artist := "x" } = none :=
  ⟨c2_amended_match_can_raise.1, c2_amended_match_can_raise.2 { artist := "x" }⟩

/-- C3: the claim says appending the `n` flag to any compiling segment
still compiles (and negates).  For the pattern variant the code crashes
instead: `RegexRule.__init__` folds every flag, including `n`, through
`FLAGS = ⟨i, l⟩`, so `ar=/foo/` compiles while `ar=/foo/n` raises
`KeyError` at construction. -/
theorem c3_negate_flag_crashes_pattern_ctor :
    getRule 0 ("ar=/foo/".toList) = some ruleArFoo
      ∧ getRule 0 ("ar=/foo/n".toList) = none := by
  constructor
  · decide
  · decide

/-- C4: the claim says a pattern segment with an operator other than `=`
fails at construction.  It does not: `ar!/foo/` constructs successfully
(`RegexRule.__init__` never consults `OPERATORS`). -/
theorem c4_counterexample :
    getRule 0 ("ar!/foo/".toList) = some ruleArBang := by
  decide

/-- C4 (amended): only `=` has an entry in `RegexRule.OPERATORS`, but the
check is deferred to match time: a pattern segment with any other operator
constructs successfully, and every subsequent match attempt raises
(`KeyError` in `getOperator`, modelled as `none`). -/
theorem c4_amended_bad_op_fails_at_match :
    getRule 0 ("ar!/foo/".toList) = some ruleArBang
      ∧ ∀ t : Track, ruleMatch 0 ruleArBang t = none :=
  ⟨by decide, fun _ => rfl⟩

theorem c4_witness :
    getRule 0 ("ar!/foo/".toList) = some ruleArBang
      ∧ ruleMatch 0 ruleArBang { artist := "foobar" } = none :=
  ⟨c4_amended_bad_op_fails_at_match.1,
   c4_amended_bad_op_fails_at_match.2 { artist := "foobar" }⟩

/-- C5: the claim says an unknown two-letter field code makes rule
construction fail with `UnknownFieldError`.  It does not: `zz=/foo/`
constructs successfully — `RuleFactory.getRule` accepts any `\w+` key and
no constructor consults `KEYWORDS`. -/
theorem c5_counterexample :
    getRule 0 ("zz=/foo/".toList) = some ruleZzRegex := by
  decide

/-- C5 (amended): unknown field codes are not rejected at construction; the
`KEYWORDS` registry is consulted by `AbstractRule.match` during evaluation,
where the unknown code makes every match attempt raise (modelled as
`none`). -/
theorem c5_amended_unknown_field_fails_at_match :
    getRule 0 ("zz=/foo/".toList) = some ruleZzRegex
      ∧ ∀ t : Track, ruleMatch 0 ruleZzRegex t = none :=
  ⟨by decide, fun _ => rfl⟩

theorem c5_witness :
    getRule 0 ("zz=/foo/".toList) = some ruleZzRegex
      ∧ ruleMatch 0 ruleZzRegex { title := "foo" } = none :=
  ⟨c5_amended_unknown_field_fails_at_match.1,
   c5_amended_unknown_field_fails_at_match.2 { title := "foo" }⟩

/-- The tokenisation of the segment `ar=/a/b/`. -/
def partsArAb : RuleParts :=
  { key := "ar".toList, operator := '=', delimiter := '/',
    value := "a/b".toList, flags := [] }

/-- C9: the claim says the extracted value never contains the segment's
delimiter.  It can: the greedy `(?P<value>.+)\3` extends to the last
delimiter occurrence, so `ar=/a/b/` parses with value `a/b`, which contains
`/`. -/
theorem c9_counterexample :
    getRuleParse ("ar=/a/b/".toList) = some partsArAb
      ∧ partsArAb.value.contains '/' = true := by
  constructor
  · decide
  · decide

/-- C9 (amended): a successfully tokenised segment decomposes as
key · operator · delimiter · value · delimiter · flags followed by ignored
trailing text, where the value is a nonempty newline-free run; the value
extends to the last delimiter occurrence, so it may itself contain the
delimiter character. -/
theorem c9_amended_value_structure (s : List Char) (p : RuleParts)
    (h : getRuleParse s = some p) :
    (∃ rest, s = p.key ++ p.operator :: p.delimiter ::
        (p.value ++ p.delimiter :: (p.flags ++ rest)))
      ∧ p.value ≠ [] ∧ ∀ c ∈ p.value, c ≠ '\n' := by
  obtain ⟨k, hk⟩ := tryKeys_sound s (wordPrefixLen s) p h
  obtain ⟨hkey, hne, hnl, rest, htl⟩ :=
    parseAfterKey_sound (s.take k) (s.drop k) p hk
  refine ⟨⟨rest, ?_⟩, hne, hnl⟩
  conv_lhs => rw [← List.take_append_drop k s]
  rw [htl, hkey]

theorem c9_witness :
    (∃ rest, ("ar=/a/b/".toList) = partsArAb.key ++ partsArAb.operator ::
        partsArAb.delimiter :: (partsArAb.value ++ partsArAb.delimiter ::
          (partsArAb.flags ++ rest)))
      ∧ partsArAb.value ≠ [] ∧ ∀ c ∈ partsArAb.value, c ≠ '\n' :=
  c9_amended_value_structure ("ar=/a/b/".toList) partsArAb (by decide)

/-! ## C1: the relative-time-span threshold -/

/-- C1: every relative-time-span rule (`%` delimiter) that constructs
successfully stores as its comparison threshold only the sub-day residual of
the parsed duration — `timedelta.seconds`, i.e. the whole-second total of
`<number><unit>` reduced modulo 86400 — not the total span; in particular
`mt<%3days%` (a 259200-second span) compiles with threshold `0`. -/
theorem c1_relative_span_threshold_is_subday_residual :
    (∀ (tz : Int) (s : List Char) (base : AbstractRule) (thr : Nat),
        getRule tz s = some (Rule.timeDelta base thr) →
        ∃ p n u us, getRuleParse s = some p ∧ tdParse p.value = some (n, u) ∧
          unitToUs (normUnit u) = some us ∧ thr = n * us / 1000000 % 86400)
    ∧ getRule 0 ("mt<%3days%".toList) =
        some (Rule.timeDelta { key := "mt".toList, operator := '<',
                               delimiter := '%', flags := [], negate := false } 0)
    ∧ (3 : Nat) * 86400000000 / 1000000 = 259200 := by
  refine ⟨?_, by decide, by decide⟩
  intro tz s base thr h
  unfold getRule at h
  cases hp : getRuleParse s with
  | none => rw [hp] at h; exact Option.noConfusion h
  | some p =>
    rw [hp] at h
    dsimp only at h
    by_cases h1 : p.delimiter == '/'
    · rw [if_pos h1] at h
      unfold regexCtor at h
      cases hf : reFlagsFold p.flags 0 with
      | none => rw [hf] at h; exact Option.noConfusion h
      | some fl =>
        rw [hf] at h
        dsimp only at h
        injection h with h'
        exact Rule.noConfusion h'
    · rw [if_neg h1] at h
      by_cases h2 : p.delimiter == '%'
      · rw [if_pos h2] at h
        unfold timeDeltaCtor at h
        cases ht : tdParse p.value with
        | none => rw [ht] at h; exact Option.noConfusion h
        | some pr =>
          obtain ⟨n, u⟩ := pr
          rw [ht] at h
          dsimp only at h
          cases hu : unitToUs (normUnit u) with
          | none => rw [hu] at h; exact Option.noConfusion h
          | some us =>
            rw [hu] at h
            dsimp only at h
            injection h with h'
            injection h' with hb hth
            exact ⟨p, n, u, us, rfl, ht, hu, hth.symm⟩
      · rw [if_neg h2] at h
        by_cases h3 : p.delimiter == '@'
        · rw [if_pos h3] at h
          unfold timeStampCtor at h
          cases hd : dateParse p.value with
          | none => rw [hd] at h; exact Option.noConfusion h
          | some tr =>
            obtain ⟨y, m, d⟩ := tr
            rw [hd] at h
            dsimp only at h
            injection h with h'
            exact Rule.noConfusion h'
        · rw [if_neg h3] at h; exact Option.noConfusion h

theorem c1_witness :
    ∃ p n u us, getRuleParse ("mt<%3days%".toList) = some p
      ∧ tdParse p.value = some (n, u)
      ∧ unitToUs (normUnit u) = some us
      ∧ (0 : Nat) = n * us / 1000000 % 86400 :=
  c1_relative_span_threshold_is_subday_residual.1 0 ("mt<%3days%".toList)
    { key := "mt".toList, operator := '<', delimiter := '%',
      flags := [], negate := false } 0 (by decide)

/-! ## C6: the vacuous conjunction -/

/-- C6: evaluating a playlist whose rule sequence is empty matches every
record of the record set (the inner loop's `toAdd` stays `True` over zero
rules), and the result replaces any previously stored matched set: the new
`tracks` and `m3u` depend only on the supplied record list, never on the
playlist's prior `tracks`. -/
theorem c6_empty_rules_match_all (tz : Int) (p : Playlist) (ts : List Track)
    (h : p.rules = []) :
    findMatchingTracks tz p ts =
      some { p with tracks := ts, m3u := some (setM3u ts) } := by
  have hm : ∀ l : List Track, matchLoop tz [] l = some l := by
    intro l
    induction l with
    | nil => rfl
    | cons t l ih => simp [matchLoop, rulesAll, ih]
  unfold findMatchingTracks
  rw [h, hm ts]

def trackA : Track := { file := "a.mp3" }

def trackB : Track := { file := "b.mp3" }

/-- A playlist holding a stale matched set from an earlier evaluation. -/
def plStale : Playlist := { name := "all", rules := [], tracks := [trackB], m3u := none }

theorem c6_witness :
    findMatchingTracks 0 plStale [trackA] =
      some { plStale with tracks := [trackA], m3u := some (setM3u [trackA]) } :=
  c6_empty_rules_match_all 0 plStale [trackA] rfl

/-! ## C7: absolute-date day truncation -/

/-- The rule compiled from `mt=@1970-01-02@` under local offset +3600
(UTC+1): `time.mktime` of local midnight of 1970-01-02 is 82800. -/
def ruleMtDate : Rule :=
  Rule.timeStamp { key := "mt".toList, operator := '=', delimiter := '@',
                   flags := [], negate := false } 82800

/-- C7: the claim says two field instants on the same *local* calendar day
as the target date both match `=`.  False under a nonzero local offset: with
`tz = 3600` the instants 84600 and 90000 both fall on local day 1
(1970-01-02 local time), yet `__match__` truncates with `gmtime` (UTC day
boundaries), so 84600 (UTC day 0) matches `false` while 90000 matches
`true`. -/
theorem c7_counterexample :
    getRule 3600 ("mt=@1970-01-02@".toList) = some ruleMtDate
      ∧ daysFromCivil 1970 1 2 = 1
      ∧ Int.fdiv (84600 + 3600) 86400 = 1
      ∧ Int.fdiv (90000 + 3600) 86400 = 1
      ∧ ruleMatch 3600 ruleMtDate { mtime := "90000" } = some true
      ∧ ruleMatch 3600 ruleMtDate { mtime := "84600" } = some false := by
  refine ⟨by decide, by decide, by decide, by decide, by decide, by decide⟩

/-- C7 (amended): `TimeStampRule.__match__` truncates the record's instant at
*UTC* day boundaries (`gmtime`), re-encodes that day through the local
`mktime`, and compares against the target, which is the local `mktime` of
the rule's date; the fixed local offset cancels, so any two instants on the
same UTC calendar day as the target date both satisfy the `=` comparison
(this is the pre-negation variant match on the parsed numeric field). -/
theorem c7_amended_utc_day_truncation (tz : Int) (p : RuleParts)
    (base : AbstractRule) (tgt y m d v1 v2 : Int)
    (hc : timeStampCtor tz p = some (Rule.timeStamp base tgt))
    (hd : dateParse p.value = some (y, m, d))
    (h1 : Int.fdiv v1 86400 = daysFromCivil y m d)
    (h2 : Int.fdiv v2 86400 = daysFromCivil y m d) :
    tsMatchCore tz '=' tgt v1 = some true
      ∧ tsMatchCore tz '=' tgt v2 = some true := by
  unfold timeStampCtor at hc
  rw [hd] at hc
  dsimp only at hc
  injection hc with hc'
  injection hc' with hb ht
  constructor
  · simp [tsMatchCore, tsOpApply, h1, ← ht]
  · simp [tsMatchCore, tsOpApply, h2, ← ht]

/-- The tokenisation of `mt=@1970-01-02@`. -/
def partsMtDate : RuleParts :=
  { key := "mt".toList, operator := '=', delimiter := '@',
    value := "1970-01-02".toList, flags := [] }

theorem c7_witness :
    tsMatchCore 3600 '=' 82800 86400 = some true
      ∧ tsMatchCore 3600 '=' 82800 172799 = some true :=
  c7_amended_utc_day_truncation 3600 partsMtDate
    { key := "mt".toList, operator := '=', delimiter := '@',
      flags := [], negate := false } 82800 1970 1 2 86400 172799
    (by decide) (by decide) (by decide) (by decide)

/-! ## C8: rendering -/

/-- C8: after any successful evaluation, the stored rendering equals the
matched records' file paths joined by newline with one trailing newline
appended; for an empty matched set it is exactly the single character
`"\n"`. -/
theorem c8_render_joined_paths_trailing_newline (tz : Int) (p : Playlist)
    (ts : List Track) (q : Playlist)
    (h : findMatchingTracks tz p ts = some q) :
    q.m3u = some (String.intercalate ("\n") (q.tracks.map Track.file) ++ "\n")
      ∧ (q.tracks = [] → q.m3u = some ("\n")) := by
  unfold findMatchingTracks at h
  cases hm : matchLoop tz p.rules ts with
  | none => rw [hm] at h; exact Option.noConfusion h
  | some m =>
    rw [hm] at h
    dsimp only at h
    injection h with h'
    subst h'
    refine ⟨rfl, ?_⟩
    intro hemp
    dsimp only at hemp
    subst hemp
    show some (setM3u []) = some ("\n")
    decide

def plNoRules : Playlist := { name := "e", rules := [], tracks := [], m3u := none }

def plNoRulesOut : Playlist :=
  { name := "e", rules := [], tracks := [], m3u := some (setM3u []) }

theorem c8_witness :
    plNoRulesOut.m3u =
        some (String.intercalate ("\n") (plNoRulesOut.tracks.map Track.file) ++ "\n")
      ∧ (plNoRulesOut.tracks = [] → plNoRulesOut.m3u = some ("\n")) :=
  c8_render_joined_paths_trailing_newline 0 plNoRules [] plNoRulesOut rfl

/-! ## C10: blank rule strings -/

theorem splitGo_ne_nil : ∀ (l acc : List Char) (b : Bool), splitGo l acc b ≠ [] := by
  intro l
  induction l with
  | nil => intro acc b; simp [splitGo]
  | cons c cs ih =>
    intro acc b
    by_cases hc : pyIsSpace c
    · cases b with
      | true => simpa [splitGo, hc] using ih [] true
      | false => simp [splitGo, hc]
    · simpa [splitGo, hc] using ih (c :: acc) false

theorem mapRules_length (tz : Int) :
    ∀ (ss : List (List Char)) (rs : List Rule),
      mapRules tz ss = some rs → rs.length = ss.length := by
  intro ss
  induction ss with
  | nil =>
    intro rs h
    simp only [mapRules, Option.some.injEq] at h
    subst h; rfl
  | cons s ss ih =>
    intro rs h
    simp only [mapRules] at h
    cases hr : getRule tz s with
    | none => rw [hr] at h; exact Option.noConfusion h
    | some r =>
      rw [hr] at h
      dsimp only at h
      cases hm : mapRules tz ss with
      | none => rw [hm] at h; exact Option.noConfusion h
      | some rs' =>
        rw [hm] at h
        dsimp only at h
        injection h with h'
        subst h'
        simp [ih rs' hm]

/-- C10: constructing a playlist from an empty or all-whitespace rule string
fails — `re.split(r'\s+', s)` then yields an empty leading segment, which
cannot match the rule grammar (`\w+` needs one character) — and dually every
successfully constructed playlist has at least one rule, so the public
constructor never produces a zero-rule playlist. -/
theorem c10_blank_rulestring_fails :
    (∀ (tz : Int) (nm : String) (s : List Char),
        (∀ c ∈ s, pyIsSpace c = true) → playlistInit tz nm s = none)
    ∧ (∀ (tz : Int) (nm : String) (s : List Char) (p : Playlist),
        playlistInit tz nm s = some p → p.rules ≠ []) := by
  constructor
  · intro tz nm s hs
    have hhead : ∃ tl, splitWs s = [] :: tl := by
      cases s with
      | nil => exact ⟨[], rfl⟩
      | cons c cs =>
        have hc : pyIsSpace c = true := hs c (List.mem_cons_self c cs)
        exact ⟨splitGo cs [] true, by simp [splitWs, splitGo, hc]⟩
    obtain ⟨tl, htl⟩ := hhead
    have hmap : mapRules tz (splitWs s) = none := by
      rw [htl]
      simp only [mapRules]
      rfl
    unfold playlistInit
    rw [hmap]
  · intro tz nm s p h
    unfold playlistInit at h
    cases hm : mapRules tz (splitWs s) with
    | none => rw [hm] at h; exact Option.noConfusion h
    | some rs =>
      rw [hm] at h
      dsimp only at h
      injection h with h'
      subst h'
      intro habs
      dsimp only at habs
      subst habs
      have hlen := mapRules_length tz (splitWs s) [] hm
      have hnil : splitWs s = [] := List.eq_nil_of_length_eq_zero hlen.symm
      exact splitGo_ne_nil s [] false hnil

theorem c10_witness :
    playlistInit 0 ("w") ("  ".toList) = none :=
  c10_blank_rulestring_fails.1 0 ("w") ("  ".toList) (by decide)

end Mpdspl
